import Mathlib

/-!
Verification of the device-trust and request-authentication core of the
finpin-serverless-api repository (src/security.ts and the device handlers).

The TypeScript code is shallowly embedded: JavaScript numbers holding epoch
milliseconds become `Int`, JS strings become `String`, the two KV namespaces
become explicit finite maps passed in and out of each operation, and the
platform crypto primitives (`crypto.subtle` SHA-256 / HMAC-SHA256) and
`Date.prototype.toISOString` are abstracted as a `Platform` parameter whose
byte outputs are bounded below 256.  `TextEncoder.encode` is modelled as the
character-code byte sequence of a string (it agrees with UTF-8 on the ASCII
data exchanged by this protocol), `btoa` is implemented concretely, and
`parseInt` is modelled with its NaN behaviour made explicit as `Option Int`
(`none` standing for NaN).  JSON (de)serialisation of store values is treated
as a faithful round trip, so store values are kept structurally; per-entry
TTLs are recorded at the put call sites but eviction is the store's concern.
-/

/-- Byte sequence of a string as fed to the platform digest/HMAC functions
(character codes; agrees with UTF-8 on the ASCII range). -/
def strBytes (s : String) : List Nat := s.data.map Char.toNat

/-- Latin-1 style decoding of a byte list back to a string. -/
def bytesToStr (l : List Nat) : String := String.mk (l.map Char.ofNat)

/-- Lowercase hex digit for a value below 16 (`toString(16)` digits). -/
def hexDigitChar (n : Nat) : Char :=
  if n < 10 then Char.ofNat (48 + n) else Char.ofNat (87 + n)

/-- Two lowercase hex digits of one byte, as produced by
`b.toString(16).padStart(2, '0')` for bytes. -/
def byteToHex (b : Nat) : List Char := [hexDigitChar (b / 16), hexDigitChar (b % 16)]

/-- Hex rendering of a byte array (`hashArray.map(...).join('')`). -/
def hexOfBytes (l : List Nat) : String := String.mk (l.flatMap byteToHex)

/-- Decimal digit characters with structural fuel (any fuel above the value
itself is enough, so reduction stays kernel-computable). -/
def natToDecCharsAux : Nat → Nat → List Char
  | 0, _ => []
  | fuel + 1, n =>
      if n < 10 then [Char.ofNat (48 + n)]
      else natToDecCharsAux fuel (n / 10) ++ [Char.ofNat (48 + n % 10)]

/-- Decimal digit characters of a natural number, most significant first. -/
def natToDecChars (n : Nat) : List Char := natToDecCharsAux (n + 1) n

/-- Decimal rendering of a natural number. -/
def natToDecStr (n : Nat) : String := String.mk (natToDecChars n)

/-- Decimal rendering of an integer (JS number-to-string for integral
values). -/
def intToDecStr (i : Int) : String :=
  if i < 0 then "-" ++ natToDecStr i.natAbs else natToDecStr i.natAbs

/-- Value of a list of decimal digit characters. -/
def digitsToNat (l : List Char) : Nat := l.foldl (fun a c => a * 10 + (c.toNat - 48)) 0

/-- Model of JavaScript `parseInt(s)` with radix 10: skip leading whitespace,
optional sign, longest digit prefix; `none` models `NaN`. -/
def parseIntJS (s : String) : Option Int :=
  let chars := s.data.dropWhile (fun c => c = ' ' ∨ c = '\t' ∨ c = '\n' ∨ c = '\r')
  match chars with
  | '-' :: rest =>
      let ds := rest.takeWhile Char.isDigit
      if ds = [] then none else some (-(digitsToNat ds : Int))
  | '+' :: rest =>
      let ds := rest.takeWhile Char.isDigit
      if ds = [] then none else some (digitsToNat ds : Int)
  | rest =>
      let ds := rest.takeWhile Char.isDigit
      if ds = [] then none else some (digitsToNat ds : Int)

/-- Character of the standard base64 alphabet for a 6-bit value. -/
def b64Char (n : Nat) : Char :=
  if n < 26 then Char.ofNat (65 + n)
  else if n < 52 then Char.ofNat (97 + (n - 26))
  else if n < 62 then Char.ofNat (48 + (n - 52))
  else if n = 62 then '+' else '/'

/-- Inverse of `b64Char` on the base64 alphabet; `none` elsewhere. -/
def b64CharDec (c : Char) : Option Nat :=
  if 65 ≤ c.toNat ∧ c.toNat ≤ 90 then some (c.toNat - 65)
  else if 97 ≤ c.toNat ∧ c.toNat ≤ 122 then some (c.toNat - 97 + 26)
  else if 48 ≤ c.toNat ∧ c.toNat ≤ 57 then some (c.toNat - 48 + 52)
  else if c = '+' then some 62
  else if c = '/' then some 63
  else none

/-- Standard (padded) base64 encoding of a byte list, as computed by `btoa`
over a byte string. -/
def b64encodeBytes : List Nat → List Char
  | [] => []
  | [a] => [b64Char (a / 4), b64Char (a % 4 * 16), '=', '=']
  | [a, b] => [b64Char (a / 4), b64Char (a % 4 * 16 + b / 16), b64Char (b % 16 * 4), '=']
  | a :: b :: c :: rest =>
      b64Char (a / 4) :: b64Char (a % 4 * 16 + b / 16) ::
        b64Char (b % 16 * 4 + c / 64) :: b64Char (c % 64) :: b64encodeBytes rest

/-- Strict base64 decoding: accepts exactly the canonical encodings produced
by `b64encodeBytes` and rejects everything else. -/
def b64decodeBytes : List Char → Option (List Nat)
  | [] => some []
  | w :: x :: y :: z :: rest =>
      match b64CharDec w, b64CharDec x with
      | some a, some b =>
          if y = '=' then
            if z = '=' ∧ rest = [] ∧ b % 16 = 0 then some [a * 4 + b / 16] else none
          else
            match b64CharDec y with
            | some c =>
                if z = '=' then
                  if rest = [] ∧ c % 4 = 0 then some [a * 4 + b / 16, b % 16 * 16 + c / 4]
                  else none
                else
                  match b64CharDec z, b64decodeBytes rest with
                  | some d, some more =>
                      some ([a * 4 + b / 16, b % 16 * 16 + c / 4, c % 4 * 64 + d] ++ more)
                  | _, _ => none
            | none => none
      | _, _ => none
  | _ => none

/-- `btoa` on a (latin-1) string. -/
def btoaStr (s : String) : String := String.mk (b64encodeBytes (strBytes s))

/-- Strict `atob`: canonical base64 decoding back to a (latin-1) string. -/
def atobStr (s : String) : Option String := (b64decodeBytes s.data).map bytesToStr

/-- JSON string escaping of one character, as performed by JSON
stringification. -/
def jsonEscapeChar (ch : Char) : List Char :=
  if ch = '"' then ['\\', '"']
  else if ch = '\\' then ['\\', '\\']
  else if ch = Char.ofNat 8 then ['\\', 'b']
  else if ch = Char.ofNat 9 then ['\\', 't']
  else if ch = Char.ofNat 10 then ['\\', 'n']
  else if ch = Char.ofNat 12 then ['\\', 'f']
  else if ch = Char.ofNat 13 then ['\\', 'r']
  else if ch.toNat < 32 then
    ['\\', 'u', '0', '0', hexDigitChar (ch.toNat / 16), hexDigitChar (ch.toNat % 16)]
  else [ch]

/-- JSON string escaping. -/
def jsonEscape (s : String) : String := String.mk (s.data.flatMap jsonEscapeChar)

/-- The platform services used by `SecurityManager`: `crypto.subtle` SHA-256
and HMAC-SHA256 (as byte-list functions whose outputs are bytes), and
`Date.prototype.toISOString` for a given epoch-millisecond instant. -/
structure Platform where
  sha256 : List Nat → List Nat
  hmac : List Nat → List Nat → List Nat
  isoString : Int → String
  sha256_lt : ∀ m, ∀ x ∈ sha256 m, x < 256
  hmac_lt : ∀ k m, ∀ x ∈ hmac k m, x < 256

/-- The configuration bindings of `Env` that the security core reads.  The
numeric settings are kept as the strings the worker receives; the code parses
them with `parseInt`. -/
structure Env where
  MASTER_KEY_SEED : String
  JWT_SECRET : String
  RATE_LIMIT_PER_MINUTE : String
  SIGNATURE_VALIDITY_MINUTES : String

/-- Free-form client metadata captured at registration (`device_info`). -/
structure DeviceMeta where
  model : String
  os_version : String
  app_version : String
  platform : String
deriving DecidableEq

/-- The `DeviceInfo` record persisted under `device:{device_id}`. -/
structure DeviceInfo where
  device_id : String
  key_seed : String
  registered_at : String
  last_seen : String
  request_count : Nat
  device_info : DeviceMeta
deriving DecidableEq

/-- A KV namespace: a map from keys to stored values.  Values are stored
structurally (the JSON round trip through the store is assumed faithful). -/
def KVStore (α : Type) : Type := String → Option α

/-- `get` on a KV namespace. -/
def KVStore.get {α : Type} (s : KVStore α) (key : String) : Option α := s key

/-- `put` on a KV namespace.  The TTL is passed by the code but expiry is the
store's concern, so it does not affect the map. -/
def KVStore.put {α : Type} (s : KVStore α) (key : String) (v : α) (_ttlSeconds : Nat) :
    KVStore α :=
  fun k => if k = key then some v else s k

/-- The empty KV namespace. -/
def KVStore.empty {α : Type} : KVStore α := fun _ => none

/-- `SecurityManager.hashString`: lowercase hex SHA-256 of a string. -/
def hashString (p : Platform) (input : String) : String :=
  hexOfBytes (p.sha256 (strBytes input))

/-- `SecurityManager.generateHMAC`: base64 of HMAC-SHA256 of a message keyed
by a string key. -/
def generateHMAC (p : Platform) (key message : String) : String :=
  String.mk (b64encodeBytes (p.hmac (strBytes key) (strBytes message)))

/-- The `seedData` string signed during key-seed generation:
`masterSeed:deviceId:timestamp`. -/
def keySeedData (env : Env) (deviceId : String) (now : Int) : String :=
  env.MASTER_KEY_SEED ++ ":" ++ deviceId ++ ":" ++ intToDecStr now

/-- `SecurityManager.generateKeySeed`: HMAC of the seed data keyed by the
master seed, base64-encoded. -/
def generateKeySeed (p : Platform) (env : Env) (now : Int) (deviceId : String) : String :=
  generateHMAC p env.MASTER_KEY_SEED (keySeedData env deviceId now)

/-- Storage key of a device record. -/
def deviceKey (deviceId : String) : String := "device:" ++ deviceId

/-- `SecurityManager.getDeviceInfo`. -/
def getDeviceInfo (cache : KVStore DeviceInfo) (deviceId : String) : Option DeviceInfo :=
  cache.get (deviceKey deviceId)

/-- `SecurityManager.storeDeviceInfo` (30-day TTL at the put site). -/
def storeDeviceInfo (cache : KVStore DeviceInfo) (di : DeviceInfo) : KVStore DeviceInfo :=
  cache.put (deviceKey di.device_id) di (86400 * 30)

/-- `SecurityManager.updateDeviceLastSeen`. -/
def updateDeviceLastSeen (p : Platform) (cache : KVStore DeviceInfo) (now : Int)
    (deviceId : String) : KVStore DeviceInfo :=
  match getDeviceInfo cache deviceId with
  | some di =>
      storeDeviceInfo cache
        { di with last_seen := p.isoString now, request_count := di.request_count + 1 }
  | none => cache

/-- The two `AuthenticationError` throws inside `verifySignature`. -/
inductive AuthFailure
  | deviceNotRegistered
  | timestampExpired
deriving DecidableEq

/-- The timestamp check `Math.abs(now - requestTime) > validityWindow`, with
JavaScript NaN semantics: if either side is NaN the comparison is false, so
the request is not rejected. -/
def timestampRejected (now : Int) (requestTime validityWindow : Option Int) : Bool :=
  match requestTime, validityWindow with
  | some t, some w => |now - t| > w
  | _, _ => false

/-- The body of `SecurityManager.verifySignature` before its catch block:
either a thrown `AuthenticationError` or the boolean signature comparison. -/
def verifySignatureE (p : Platform) (env : Env) (cache : KVStore DeviceInfo) (now : Int)
    (deviceId timestamp signature requestBody : String) : Except AuthFailure Bool :=
  match getDeviceInfo cache deviceId with
  | none => Except.error AuthFailure.deviceNotRegistered
  | some deviceInfo =>
      let requestTime := parseIntJS timestamp
      let validityWindow := (parseIntJS env.SIGNATURE_VALIDITY_MINUTES).map (fun m => m * 60 * 1000)
      if timestampRejected now requestTime validityWindow then
        Except.error AuthFailure.timestampExpired
      else
        let message := timestamp ++ deviceId ++ hashString p requestBody
        let expectedSignature := generateHMAC p deviceInfo.key_seed message
        Except.ok (signature == expectedSignature)

/-- `SecurityManager.verifySignature`: the catch block downgrades every thrown
error to a plain `false`. -/
def verifySignature (p : Platform) (env : Env) (cache : KVStore DeviceInfo) (now : Int)
    (deviceId timestamp signature requestBody : String) : Bool :=
  match verifySignatureE p env cache now deviceId timestamp signature requestBody with
  | Except.ok b => b
  | Except.error _ => false

/-- Storage key of a device's rate window. -/
def rateKey (deviceId : String) : String := "rate_limit:" ++ deviceId

/-- The `RateLimitError` message. -/
def rateLimitMessage (maxRequests : Int) : String :=
  "Rate limit exceeded: " ++ intToDecStr maxRequests ++ " requests per minute"

/-- `SecurityManager.checkRateLimit`: returns the thrown `RateLimitError` or
success, together with the resulting RATE_LIMIT namespace (unchanged when the
error is thrown, since the throw happens before the put). -/
def checkRateLimit (env : Env) (rl : KVStore (List Int)) (now : Int) (deviceId : String) :
    Except String Unit × KVStore (List Int) :=
  let key := rateKey deviceId
  let requests := (rl.get key).getD []
  let windowStart := now - 60 * 1000
  let recentRequests := requests.filter (fun t => windowStart < t)
  match parseIntJS env.RATE_LIMIT_PER_MINUTE with
  | some maxRequests =>
      if (recentRequests.length : Int) ≥ maxRequests then
        (Except.error (rateLimitMessage maxRequests), rl)
      else
        (Except.ok (), rl.put key (recentRequests ++ [now]) 3600)
  | none => (Except.ok (), rl.put key (recentRequests ++ [now]) 3600)

/-- A sequence of `checkRateLimit` calls at the given instants, threading the
RATE_LIMIT namespace and collecting each call's outcome. -/
def runRateCalls (env : Env) (deviceId : String) :
    KVStore (List Int) → List Int → KVStore (List Int) × List (Except String Unit)
  | rl, [] => (rl, [])
  | rl, t :: ts =>
      let r := checkRateLimit env rl t deviceId
      let rest := runRateCalls env deviceId r.2 ts
      (rest.1, r.1 :: rest.2)

/-- The device-token payload `{device_id, issued_at, expires_at}`. -/
structure TokenPayload where
  device_id : String
  issued_at : Int
  expires_at : Int
deriving DecidableEq

/-- Literal JSON fragments of the stringified token payload. -/
def litP1 : String := "\x7b\"device_id\":\""

/-- Fragment between the device id and `issued_at`. -/
def litP2 : String := "\",\"issued_at\":"

/-- Fragment between `issued_at` and `expires_at`. -/
def litP3 : String := ",\"expires_at\":"

/-- Closing fragment of the payload object. -/
def litP4 : String := "\x7d"

/-- `JSON.stringify` of the token payload (insertion order of the keys). -/
def stringifyTokenPayload (p : TokenPayload) : String :=
  litP1 ++ jsonEscape p.device_id ++ litP2 ++ intToDecStr p.issued_at ++
    litP3 ++ intToDecStr p.expires_at ++ litP4

/-- `SecurityManager.generateDeviceToken`: the HMAC is computed over the raw
JSON payload bytes, and the token is `btoa(payloadJson) + "." + btoa(mac)`. -/
def generateDeviceToken (p : Platform) (env : Env) (now : Int) (deviceId : String) : String :=
  let payload : TokenPayload :=
    { device_id := deviceId, issued_at := now, expires_at := now + 86400 * 1000 * 30 }
  let payloadJson := stringifyTokenPayload payload
  let signatureBase64 := String.mk (b64encodeBytes (p.hmac (strBytes env.JWT_SECRET) (strBytes payloadJson)))
  btoaStr payloadJson ++ "." ++ signatureBase64

/-- The token construction as the specification words it, for comparison with
the code: the HMAC is computed over the base64-ENCODED payload bytes. -/
def generateDeviceTokenSpecWords (p : Platform) (env : Env) (now : Int) (deviceId : String) :
    String :=
  let payload : TokenPayload :=
    { device_id := deviceId, issued_at := now, expires_at := now + 86400 * 1000 * 30 }
  let encodedPayload := btoaStr (stringifyTokenPayload payload)
  let signatureBase64 := String.mk (b64encodeBytes (p.hmac (strBytes env.JWT_SECRET) (strBytes encodedPayload)))
  encodedPayload ++ "." ++ signatureBase64

/-- The device-registration handler core: derive a fresh key seed, build the
record with zero request count and current timestamps, persist it. -/
def registerDevice (p : Platform) (env : Env) (cache : KVStore DeviceInfo) (now : Int)
    (deviceId : String) (meta : DeviceMeta) : KVStore DeviceInfo × DeviceInfo :=
  let keySeed := generateKeySeed p env now deviceId
  let di : DeviceInfo :=
    { device_id := deviceId
      key_seed := keySeed
      registered_at := p.isoString now
      last_seen := p.isoString now
      request_count := 0
      device_info := meta }
  (storeDeviceInfo cache di, di)

/-- The `data` object of the registration response: the only reply carrying
the key seed. -/
def registrationResponseData (p : Platform) (env : Env) (now : Int) (deviceId : String) :
    List (String × String) :=
  [("key_seed", generateKeySeed p env now deviceId),
   ("expires_at", p.isoString (now + 30 * 24 * 60 * 60 * 1000)),
   ("device_token", generateDeviceToken p env now deviceId)]

/-- JSON rendering of the client metadata, used in the device-info reply. -/
def stringifyDeviceMeta (m : DeviceMeta) : String :=
  "\x7b\"model\":\"" ++ jsonEscape m.model ++ "\",\"os_version\":\"" ++ jsonEscape m.os_version ++
    "\",\"app_version\":\"" ++ jsonEscape m.app_version ++ "\",\"platform\":\"" ++
    jsonEscape m.platform ++ "\"\x7d"

/-- The `safeDeviceInfo` object of the device-information endpoint: sensitive
information removed. -/
def safeDeviceInfoFields (di : DeviceInfo) : List (String × String) :=
  [("device_id", di.device_id),
   ("registered_at", di.registered_at),
   ("last_seen", di.last_seen),
   ("request_count", natToDecStr di.request_count),
   ("device_info", stringifyDeviceMeta di.device_info)]

/-- The device-information lookup handler: absent device is a 404, otherwise
the sanitized field list is returned. -/
def getDeviceInfoHandler (cache : KVStore DeviceInfo) (deviceId : String) :
    Option (List (String × String)) :=
  (getDeviceInfo cache deviceId).map safeDeviceInfoFields

/-- Strip an exact character-list prefix; `none` when it does not match. -/
def stripPre : List Char → List Char → Option (List Char)
  | [], r => some r
  | _ :: _, [] => none
  | q :: qs, r :: rs => if r = q then stripPre qs rs else none

/-- Parse a leading (optionally negated) decimal integer, returning the rest
of the input. -/
def parseIntChars (l : List Char) : Option (Int × List Char) :=
  match l with
  | [] => none
  | c :: rest =>
      if c = '-' then
        let ds := rest.takeWhile Char.isDigit
        if ds = [] then none else some (-(digitsToNat ds : Int), rest.dropWhile Char.isDigit)
      else
        let ds := (c :: rest).takeWhile Char.isDigit
        if ds = [] then none else some ((digitsToNat ds : Int), (c :: rest).dropWhile Char.isDigit)

/-- Parse the exact JSON shape produced by `stringifyTokenPayload` (for
device ids without escape sequences). -/
def parseTokenPayload (s : String) : Option TokenPayload :=
  match stripPre litP1.data s.data with
  | none => none
  | some r1 =>
      let did := r1.takeWhile (fun c => c ≠ '"')
      let r2 := r1.dropWhile (fun c => c ≠ '"')
      match stripPre litP2.data r2 with
      | none => none
      | some r3 =>
          match parseIntChars r3 with
          | none => none
          | some (issuedAt, r4) =>
              match stripPre litP3.data r4 with
              | none => none
              | some r5 =>
                  match parseIntChars r5 with
                  | none => none
                  | some (expiresAt, r6) =>
                      if r6 = litP4.data then
                        some { device_id := String.mk did, issued_at := issuedAt,
                               expires_at := expiresAt }
                      else none

/-- Modelled from the spec: the repository contains no token-verification
code, so `verify(token)` of §4.5 is taken at its words — split the token on
the separator, recompute the HMAC over the payload segment, compare it to the
provided signature, decode the payload, and additionally check
`now <= expires_at`; any mismatch or malformed structure is invalid. -/
def verifyDeviceToken (p : Platform) (env : Env) (now : Int) (token : String) :
    Option TokenPayload :=
  match (token.data.splitOn '.').map String.mk with
  | [payloadB64, signatureB64] =>
      if signatureB64 = String.mk (b64encodeBytes (p.hmac (strBytes env.JWT_SECRET) (strBytes payloadB64))) then
        match atobStr payloadB64 with
        | some payloadJson =>
            match parseTokenPayload payloadJson with
            | some payload => if now ≤ payload.expires_at then some payload else none
            | none => none
        | none => none
      else none
  | _ => none

/-- The token-verification counterpart that matches the issuance actually in
the code: the HMAC is recomputed over the base64-DECODED payload segment (the
raw JSON bytes that `generateDeviceToken` signs). -/
def verifyDeviceTokenDecoded (p : Platform) (env : Env) (now : Int) (token : String) :
    Option TokenPayload :=
  match (token.data.splitOn '.').map String.mk with
  | [payloadB64, signatureB64] =>
      match atobStr payloadB64 with
      | some payloadJson =>
          if signatureB64 = String.mk (b64encodeBytes (p.hmac (strBytes env.JWT_SECRET) (strBytes payloadJson))) then
            match parseTokenPayload payloadJson with
            | some payload => if now ≤ payload.expires_at then some payload else none
            | none => none
          else none
      | none => none
  | _ => none

/-- A concrete platform instance used to evaluate the development on explicit
inputs: both digests are the byte-wise truncation of the input, which keeps
every distinction between bounded byte lists, and the ISO rendering is an
injective tagging of the instant. -/
def idPlatform : Platform where
  sha256 := fun m => m.map (fun x => x % 256)
  hmac := fun _ m => m.map (fun x => x % 256)
  isoString := fun t => "T" ++ intToDecStr t
  sha256_lt := by
    intro m x hx
    simp only [List.mem_map] at hx
    obtain ⟨y, _, rfl⟩ := hx
    omega
  hmac_lt := by
    intro k m x hx
    simp only [List.mem_map] at hx
    obtain ⟨y, _, rfl⟩ := hx
    omega

/-- A concrete configuration used to evaluate the development. -/
def sampleEnv : Env :=
  { MASTER_KEY_SEED := "master-seed"
    JWT_SECRET := "jwt-secret"
    RATE_LIMIT_PER_MINUTE := "2"
    SIGNATURE_VALIDITY_MINUTES := "5" }

/-- Sample client metadata. -/
def sampleMeta : DeviceMeta :=
  { model := "iPhone15", os_version := "17.0", app_version := "1.0", platform := "ios" }

/-- A sample registered device record. -/
def sampleDevice : DeviceInfo :=
  { device_id := "dev-1", key_seed := "seed", registered_at := "R", last_seen := "L",
    request_count := 3, device_info := sampleMeta }

/-- A CACHE namespace holding exactly the sample device. -/
def sampleCache : KVStore DeviceInfo := storeDeviceInfo KVStore.empty sampleDevice

theorem b64CharDec_b64Char (n : Nat) (h : n < 64) : b64CharDec (b64Char n) = some n := by
  revert h
  revert n
  decide

theorem b64Char_ne_eq (n : Nat) : b64Char n ≠ '=' := by
  by_cases h : n < 64
  · revert h; revert n; decide
  · simp only [b64Char]
    rw [if_neg (by omega), if_neg (by omega), if_neg (by omega), if_neg (by omega)]
    decide

theorem b64Char_ne_dot (n : Nat) : b64Char n ≠ '.' := by
  by_cases h : n < 64
  · revert h; revert n; decide
  · simp only [b64Char]
    rw [if_neg (by omega), if_neg (by omega), if_neg (by omega), if_neg (by omega)]
    decide

theorem charOfNat_toNat (c : Char) : Char.ofNat c.toNat = c := by
  unfold Char.ofNat
  rw [dif_pos (show c.toNat.isValidChar from c.valid)]
  apply Char.eq_of_val_eq
  apply UInt32.eq_of_toBitVec_eq
  apply BitVec.eq_of_toNat_eq
  simp [Char.ofNatAux, Char.toNat]
  rfl

set_option maxRecDepth 4096 in
theorem char_toNat_ofNat_small : ∀ n, n < 256 → (Char.ofNat n).toNat = n := by decide

theorem char_toNat_inj {c d : Char} (h : c.toNat = d.toNat) : c = d := by
  rw [← charOfNat_toNat c, ← charOfNat_toNat d, h]

theorem b64CharDec_lt {c : Char} {v : Nat} (h : b64CharDec c = some v) : v < 64 := by
  unfold b64CharDec at h
  split_ifs at h with h1 h2 h3 h4 h5 <;> simp only [Option.some.injEq] at h <;> omega

theorem b64CharDec_eq {c : Char} {v : Nat} (h : b64CharDec c = some v) : c = b64Char v := by
  unfold b64CharDec at h
  split_ifs at h with h1 h2 h3 h4 h5 <;> simp only [Option.some.injEq] at h
  · subst h
    unfold b64Char
    rw [if_pos (by omega), show 65 + (c.toNat - 65) = c.toNat by omega, charOfNat_toNat]
  · subst h
    unfold b64Char
    rw [if_neg (by omega), if_pos (by omega),
      show 97 + (c.toNat - 97 + 26 - 26) = c.toNat by omega, charOfNat_toNat]
  · subst h
    unfold b64Char
    rw [if_neg (by omega), if_neg (by omega), if_pos (by omega),
      show 48 + (c.toNat - 48 + 52 - 52) = c.toNat by omega, charOfNat_toNat]
  · subst h4; subst h; rfl
  · subst h5; subst h; rfl

theorem b64decode_encode (l : List Nat) (h : ∀ x ∈ l, x < 256) :
    b64decodeBytes (b64encodeBytes l) = some l := by
  induction l using b64encodeBytes.induct with
  | case1 => rfl
  | case2 a =>
      have ha : a < 256 := h a (by simp)
      simp only [b64encodeBytes, b64decodeBytes]
      simp [b64CharDec_b64Char (a / 4) (by omega),
        b64CharDec_b64Char (a % 4 * 16) (by omega),
        show (a % 4 * 16) % 16 = 0 by omega]
      omega
  | case3 a b =>
      have ha : a < 256 := h a (by simp)
      have hb : b < 256 := h b (by simp)
      simp only [b64encodeBytes, b64decodeBytes]
      simp [b64CharDec_b64Char (a / 4) (by omega),
        b64CharDec_b64Char (a % 4 * 16 + b / 16) (by omega),
        b64CharDec_b64Char (b % 16 * 4) (by omega),
        b64Char_ne_eq (b % 16 * 4),
        show (b % 16 * 4) % 4 = 0 by omega]
      omega
  | case4 a b c rest ih =>
      have ha : a < 256 := h a (by simp)
      have hb : b < 256 := h b (by simp)
      have hc : c < 256 := h c (by simp)
      have hrest : ∀ x ∈ rest, x < 256 := fun x hx => h x (by simp [hx])
      simp only [b64encodeBytes, b64decodeBytes]
      simp [b64CharDec_b64Char (a / 4) (by omega),
        b64CharDec_b64Char (a % 4 * 16 + b / 16) (by omega),
        b64CharDec_b64Char (b % 16 * 4 + c / 64) (by omega),
        b64CharDec_b64Char (c % 64) (by omega),
        b64Char_ne_eq (b % 16 * 4 + c / 64), b64Char_ne_eq (c % 64),
        ih hrest]
      omega

theorem b64encode_decode {s : List Char} {l : List Nat} (h : b64decodeBytes s = some l) :
    b64encodeBytes l = s := by
  induction s using b64decodeBytes.induct generalizing l with
  | case1 =>
      simp only [b64decodeBytes, Option.some.injEq] at h
      subst h
      rfl
  | case2 w x z rest a b hx hw hcond =>
      obtain ⟨hz, hrest, hb16⟩ := hcond
      subst hz
      subst hrest
      have ha' := b64CharDec_lt hw
      have hb' := b64CharDec_lt hx
      simp [b64decodeBytes, hw, hx, hb16] at h
      subst h
      simp only [b64encodeBytes]
      rw [show (a * 4 + b / 16) / 4 = a by omega,
        show (a * 4 + b / 16) % 4 * 16 = b by omega,
        ← b64CharDec_eq hw, ← b64CharDec_eq hx]
  | case3 w x z rest a b hx hw hcond =>
      simp [b64decodeBytes, hw, hx, hcond] at h
  | case4 w x y rest a b hx hw hy c hy2 hcond =>
      obtain ⟨hrest, hc4⟩ := hcond
      subst hrest
      have ha' := b64CharDec_lt hw
      have hb' := b64CharDec_lt hx
      have hc' := b64CharDec_lt hy2
      simp [b64decodeBytes, hw, hx, hy, hy2, hc4] at h
      subst h
      simp only [b64encodeBytes]
      rw [show (a * 4 + b / 16) / 4 = a by omega,
        show (a * 4 + b / 16) % 4 * 16 + (b % 16 * 16 + c / 4) / 16 = b by omega,
        show (b % 16 * 16 + c / 4) % 16 * 4 = c by omega,
        ← b64CharDec_eq hw, ← b64CharDec_eq hx, ← b64CharDec_eq hy2]
  | case5 w x y rest a b hx hw hy c hy2 hcond =>
      simp [b64decodeBytes, hw, hx, hy, hy2, hcond] at h
  | case6 w x y z rest a b hx hw hy c hy2 hz d more hmore hz2 ih =>
      have ha' := b64CharDec_lt hw
      have hb' := b64CharDec_lt hx
      have hc' := b64CharDec_lt hy2
      have hd' := b64CharDec_lt hz2
      simp [b64decodeBytes, hw, hx, hy, hy2, hz, hz2, hmore] at h
      subst h
      simp only [b64encodeBytes]
      rw [show (a * 4 + b / 16) / 4 = a by omega,
        show (a * 4 + b / 16) % 4 * 16 + (b % 16 * 16 + c / 4) / 16 = b by omega,
        show (b % 16 * 16 + c / 4) % 16 * 4 + (c % 4 * 64 + d) / 64 = c by omega,
        show (c % 4 * 64 + d) % 64 = d by omega,
        ← b64CharDec_eq hw, ← b64CharDec_eq hx, ← b64CharDec_eq hy2, ← b64CharDec_eq hz2,
        ih hmore]
  | case7 w x y z rest a b hx hw hy c hy2 hz hfail ih =>
      simp only [b64decodeBytes, hw, hx] at h
      rw [if_neg hy] at h
      simp only [hy2] at h
      rw [if_neg hz] at h
      rcases hzd : b64CharDec z with _ | d
      · simp [hzd] at h
      · rcases hm : b64decodeBytes rest with _ | more
        · simp [hzd, hm] at h
        · exact absurd (hfail d more hzd hm) (by simp)
  | case8 w x y z rest a b hx hw hy hynone =>
      simp [b64decodeBytes, hw, hx, hy, hynone] at h
  | case9 w x y z rest hfail =>
      rcases hwd : b64CharDec w with _ | a
      · simp [b64decodeBytes, hwd] at h
      · rcases hxd : b64CharDec x with _ | b
        · simp [b64decodeBytes, hwd, hxd] at h
        · exact absurd (hfail a b hwd hxd) (by simp)
  | case10 s hne hshape =>
      rcases s with _ | ⟨c1, _ | ⟨c2, _ | ⟨c3, _ | ⟨c4, rest⟩⟩⟩⟩
      · exact absurd rfl hne
      · simp [b64decodeBytes] at h
      · simp [b64decodeBytes] at h
      · simp [b64decodeBytes] at h
      · exact absurd rfl (hshape c1 c2 c3 c4 rest)

theorem b64decode_lt {s : List Char} {l : List Nat} (h : b64decodeBytes s = some l) :
    ∀ v ∈ l, v < 256 := by
  induction s using b64decodeBytes.induct generalizing l with
  | case1 =>
      simp only [b64decodeBytes, Option.some.injEq] at h
      subst h
      simp
  | case2 w x z rest a b hx hw hcond =>
      obtain ⟨hz, hrest, hb16⟩ := hcond
      subst hz
      subst hrest
      have ha' := b64CharDec_lt hw
      have hb' := b64CharDec_lt hx
      simp [b64decodeBytes, hw, hx, hb16] at h
      subst h
      simp only [List.mem_singleton]
      rintro v rfl
      omega
  | case3 w x z rest a b hx hw hcond =>
      simp [b64decodeBytes, hw, hx, hcond] at h
  | case4 w x y rest a b hx hw hy c hy2 hcond =>
      obtain ⟨hrest, hc4⟩ := hcond
      subst hrest
      have ha' := b64CharDec_lt hw
      have hb' := b64CharDec_lt hx
      have hc' := b64CharDec_lt hy2
      simp [b64decodeBytes, hw, hx, hy, hy2, hc4] at h
      subst h
      intro v hv
      simp only [List.mem_cons, List.not_mem_nil, or_false] at hv
      rcases hv with rfl | rfl <;> omega
  | case5 w x y rest a b hx hw hy c hy2 hcond =>
      simp [b64decodeBytes, hw, hx, hy, hy2, hcond] at h
  | case6 w x y z rest a b hx hw hy c hy2 hz d more hmore hz2 ih =>
      have ha' := b64CharDec_lt hw
      have hb' := b64CharDec_lt hx
      have hc' := b64CharDec_lt hy2
      have hd' := b64CharDec_lt hz2
      simp [b64decodeBytes, hw, hx, hy, hy2, hz, hz2, hmore] at h
      subst h
      intro v hv
      simp only [List.cons_append, List.nil_append, List.mem_cons] at hv
      rcases hv with hv | hv | hv | hv
      · omega
      · omega
      · omega
      · exact ih hmore v hv
  | case7 w x y z rest a b hx hw hy c hy2 hz hfail ih =>
      simp only [b64decodeBytes, hw, hx] at h
      rw [if_neg hy] at h
      simp only [hy2] at h
      rw [if_neg hz] at h
      rcases hzd : b64CharDec z with _ | d
      · simp [hzd] at h
      · rcases hm : b64decodeBytes rest with _ | more
        · simp [hzd, hm] at h
        · exact absurd (hfail d more hzd hm) (by simp)
  | case8 w x y z rest a b hx hw hy hynone =>
      simp [b64decodeBytes, hw, hx, hy, hynone] at h
  | case9 w x y z rest hfail =>
      rcases hwd : b64CharDec w with _ | a
      · simp [b64decodeBytes, hwd] at h
      · rcases hxd : b64CharDec x with _ | b
        · simp [b64decodeBytes, hwd, hxd] at h
        · exact absurd (hfail a b hwd hxd) (by simp)
  | case10 s hne hshape =>
      rcases s with _ | ⟨c1, _ | ⟨c2, _ | ⟨c3, _ | ⟨c4, rest⟩⟩⟩⟩
      · exact absurd rfl hne
      · simp [b64decodeBytes] at h
      · simp [b64decodeBytes] at h
      · simp [b64decodeBytes] at h
      · exact absurd rfl (hshape c1 c2 c3 c4 rest)

theorem b64encode_inj {l1 l2 : List Nat} (h1 : ∀ x ∈ l1, x < 256) (h2 : ∀ x ∈ l2, x < 256)
    (h : b64encodeBytes l1 = b64encodeBytes l2) : l1 = l2 := by
  have e1 := b64decode_encode l1 h1
  rw [h, b64decode_encode l2 h2] at e1
  exact (Option.some.injEq _ _ ▸ e1).symm ▸ rfl

theorem b64encode_ne_nil {l : List Nat} (h : l ≠ []) : b64encodeBytes l ≠ [] := by
  match l with
  | [] => exact absurd rfl h
  | [a] => simp [b64encodeBytes]
  | [a, b] => simp [b64encodeBytes]
  | a :: b :: c :: rest => simp [b64encodeBytes]

theorem b64encode_no_dot (l : List Nat) : '.' ∉ b64encodeBytes l := by
  induction l using b64encodeBytes.induct with
  | case1 => simp [b64encodeBytes]
  | case2 a =>
      intro hmem
      simp only [b64encodeBytes, List.mem_cons, List.not_mem_nil, or_false] at hmem
      rcases hmem with h | h | h | h
      · exact b64Char_ne_dot _ h.symm
      · exact b64Char_ne_dot _ h.symm
      · exact absurd h (by decide)
      · exact absurd h (by decide)
  | case3 a b =>
      intro hmem
      simp only [b64encodeBytes, List.mem_cons, List.not_mem_nil, or_false] at hmem
      rcases hmem with h | h | h | h
      · exact b64Char_ne_dot _ h.symm
      · exact b64Char_ne_dot _ h.symm
      · exact b64Char_ne_dot _ h.symm
      · exact absurd h (by decide)
  | case4 a b c rest ih =>
      intro hmem
      simp only [b64encodeBytes, List.mem_cons] at hmem
      rcases hmem with h | h | h | h | h
      · exact b64Char_ne_dot _ h.symm
      · exact b64Char_ne_dot _ h.symm
      · exact b64Char_ne_dot _ h.symm
      · exact b64Char_ne_dot _ h.symm
      · exact ih h

theorem stringMk_inj {l1 l2 : List Char} (h : String.mk l1 = String.mk l2) : l1 = l2 :=
  congrArg String.data h

theorem string_mk_data (s : String) : String.mk s.data = s := by
  cases s
  rfl

theorem strBytes_bytesToStr {l : List Nat} (h : ∀ x ∈ l, x < 256) :
    strBytes (bytesToStr l) = l := by
  induction l with
  | nil => rfl
  | cons a t ih =>
      have ha : a < 256 := h a (by simp)
      have ht : ∀ x ∈ t, x < 256 := fun x hx => h x (by simp [hx])
      simp only [strBytes, bytesToStr, List.map_cons] at *
      exact List.cons_eq_cons.mpr ⟨char_toNat_ofNat_small a ha, ih ht⟩

theorem bytesToStr_strBytes (s : String) : bytesToStr (strBytes s) = s := by
  apply String.ext
  simp only [bytesToStr, strBytes, List.map_map]
  show s.data.map (Char.ofNat ∘ Char.toNat) = s.data
  have : ∀ c ∈ s.data, (Char.ofNat ∘ Char.toNat) c = id c := fun c _ => charOfNat_toNat c
  rw [List.map_congr_left this, List.map_id]

theorem strBytes_inj {s t : String} (h : strBytes s = strBytes t) : s = t := by
  rw [← bytesToStr_strBytes s, ← bytesToStr_strBytes t, h]

theorem strBytes_mem_lt {s : String} (h : ∀ c ∈ s.data, c.toNat < 256) :
    ∀ x ∈ strBytes s, x < 256 := by
  intro x hx
  simp only [strBytes, List.mem_map] at hx
  obtain ⟨c, hc, rfl⟩ := hx
  exact h c hc

theorem atobStr_btoaStr {s : String} (h : ∀ c ∈ s.data, c.toNat < 256) :
    atobStr (btoaStr s) = some s := by
  have hdec : b64decodeBytes (btoaStr s).data = some (strBytes s) := by
    unfold btoaStr
    exact b64decode_encode _ (strBytes_mem_lt h)
  unfold atobStr
  rw [hdec]
  show some (bytesToStr (strBytes s)) = some s
  rw [bytesToStr_strBytes]

theorem btoaStr_of_atob {s t : String} (h : atobStr s = some t) : btoaStr t = s := by
  unfold atobStr at h
  rcases hdec : b64decodeBytes s.data with _ | l
  · rw [hdec] at h; simp at h
  · rw [hdec] at h
    have h2 : bytesToStr l = t := by
      have := h
      rw [show Option.map bytesToStr (some l) = some (bytesToStr l) from rfl] at this
      exact Option.some.injEq _ _ ▸ this
    subst h2
    unfold btoaStr
    rw [strBytes_bytesToStr (b64decode_lt hdec), b64encode_decode hdec, string_mk_data]

theorem btoaStr_no_dot (s : String) : '.' ∉ (btoaStr s).data := by
  unfold btoaStr
  exact b64encode_no_dot (strBytes s)

theorem char_isDigit_ofNat_digit : ∀ d, d < 10 → (Char.ofNat (48 + d)).isDigit = true := by
  decide

theorem natToDecCharsAux_stable :
    ∀ fuel fuel' n, n < fuel → fuel ≤ fuel' →
      natToDecCharsAux fuel n = natToDecCharsAux fuel' n := by
  intro fuel
  induction fuel with
  | zero => omega
  | succ f ih =>
      intro fuel' n hn hle
      obtain ⟨f', rfl⟩ : ∃ f', fuel' = f' + 1 := ⟨fuel' - 1, by omega⟩
      rw [natToDecCharsAux, natToDecCharsAux]
      split
      · rfl
      · rw [ih f' (n / 10) (by omega) (by omega)]

theorem natToDecChars_digits (n : Nat) : ∀ c ∈ natToDecChars n, c.isDigit = true := by
  suffices h : ∀ fuel n, n < fuel → ∀ c ∈ natToDecCharsAux fuel n, c.isDigit = true from
    h (n + 1) n (by omega)
  intro fuel
  induction fuel with
  | zero => omega
  | succ f ih =>
      intro n hn c hc
      rw [natToDecCharsAux] at hc
      split at hc
      · simp only [List.mem_singleton] at hc
        subst hc
        exact char_isDigit_ofNat_digit n (by omega)
      · simp only [List.mem_append, List.mem_singleton] at hc
        rcases hc with hc | rfl
        · exact ih (n / 10) (by omega) c hc
        · exact char_isDigit_ofNat_digit (n % 10) (by omega)

theorem natToDecChars_ne_nil (n : Nat) : natToDecChars n ≠ [] := by
  rw [natToDecChars, natToDecCharsAux]
  split
  · simp
  · simp

theorem digitsToNat_append (l : List Char) (c : Char) :
    digitsToNat (l ++ [c]) = digitsToNat l * 10 + (c.toNat - 48) := by
  simp [digitsToNat, List.foldl_append]

theorem digitsToNat_natToDecChars (n : Nat) : digitsToNat (natToDecChars n) = n := by
  suffices h : ∀ fuel n, n < fuel → digitsToNat (natToDecCharsAux fuel n) = n from
    h (n + 1) n (by omega)
  intro fuel
  induction fuel with
  | zero => omega
  | succ f ih =>
      intro n hn
      rw [natToDecCharsAux]
      split
      · simp [digitsToNat, char_toNat_ofNat_small (48 + n) (by omega)]
      · rw [digitsToNat_append, ih (n / 10) (by omega),
          char_toNat_ofNat_small (48 + n % 10) (by omega)]
        omega

theorem takeWhile_middle {p : Char → Bool} (a : List Char) (c : Char) (b : List Char)
    (ha : ∀ x ∈ a, p x = true) (hc : p c = false) :
    (a ++ c :: b).takeWhile p = a := by
  induction a with
  | nil => simp [List.takeWhile_cons, hc]
  | cons d t ih =>
      have hd : p d = true := ha d (by simp)
      simp [List.cons_append, List.takeWhile_cons, hd, ih (fun x hx => ha x (by simp [hx]))]

theorem dropWhile_middle {p : Char → Bool} (a : List Char) (c : Char) (b : List Char)
    (ha : ∀ x ∈ a, p x = true) (hc : p c = false) :
    (a ++ c :: b).dropWhile p = c :: b := by
  induction a with
  | nil => simp [List.dropWhile_cons, hc]
  | cons d t ih =>
      have hd : p d = true := ha d (by simp)
      simp [List.cons_append, List.dropWhile_cons, hd, ih (fun x hx => ha x (by simp [hx]))]

theorem stripPre_append (q r : List Char) : stripPre q (q ++ r) = some r := by
  induction q with
  | nil => rfl
  | cons c t ih => simp [stripPre, ih]

theorem flatMap_escape_id {l : List Char} (h : ∀ ch ∈ l, jsonEscapeChar ch = [ch]) :
    l.flatMap jsonEscapeChar = l := by
  induction l with
  | nil => rfl
  | cons c t ih =>
      simp only [List.flatMap_cons, h c (by simp), List.singleton_append]
      rw [ih (fun ch hch => h ch (by simp [hch]))]

theorem jsonEscape_id {s : String} (h : ∀ ch ∈ s.data, jsonEscapeChar ch = [ch]) :
    jsonEscape s = s := by
  apply String.ext
  show s.data.flatMap jsonEscapeChar = s.data
  exact flatMap_escape_id h

theorem jsonEscapeChar_ne_quote {ch : Char} (h : jsonEscapeChar ch = [ch]) : ch ≠ '"' := by
  intro hq
  rw [hq] at h
  exact absurd h (by decide)

theorem natToDecChars_ne_dash {n : Nat} {c : Char} (hc : c ∈ natToDecChars n) : c ≠ '-' := by
  intro hdash
  have := natToDecChars_digits n c hc
  rw [hdash] at this
  exact absurd this (by decide)

theorem parseIntCharsLeading (i : Int) (c : Char) (tail : List Char) (hc : c.isDigit = false) :
    parseIntChars ((intToDecStr i).data ++ c :: tail) = some (i, c :: tail) := by
  by_cases hneg : i < 0
  · have hdata : (intToDecStr i).data = '-' :: natToDecChars i.natAbs := by
      unfold intToDecStr
      rw [if_pos hneg, String.data_append]
      rfl
    rw [hdata, List.cons_append]
    simp only [parseIntChars]
    rw [if_pos trivial,
      takeWhile_middle _ _ _ (natToDecChars_digits _) hc,
      dropWhile_middle _ _ _ (natToDecChars_digits _) hc,
      if_neg (natToDecChars_ne_nil _), digitsToNat_natToDecChars]
    simp only [Option.some.injEq, Prod.mk.injEq]
    exact ⟨by omega, trivial⟩
  · have hdata : (intToDecStr i).data = natToDecChars i.natAbs := by
      unfold intToDecStr
      rw [if_neg hneg]
      rfl
    rw [hdata]
    obtain ⟨d, ds', hsplit⟩ : ∃ d ds', natToDecChars i.natAbs = d :: ds' := by
      rcases hh : natToDecChars i.natAbs with _ | ⟨d, ds'⟩
      · exact absurd hh (natToDecChars_ne_nil _)
      · exact ⟨d, ds', rfl⟩
    have hd_dash : ¬ d = '-' := natToDecChars_ne_dash (by rw [hsplit]; simp)
    rw [hsplit, List.cons_append]
    simp only [parseIntChars]
    rw [if_neg hd_dash, ← List.cons_append, ← hsplit,
      takeWhile_middle _ _ _ (natToDecChars_digits _) hc,
      dropWhile_middle _ _ _ (natToDecChars_digits _) hc,
      if_neg (natToDecChars_ne_nil _), digitsToNat_natToDecChars]
    simp only [Option.some.injEq, Prod.mk.injEq]
    exact ⟨by omega, trivial⟩

theorem stripPre_cons {q : Char} {qs r : List Char} {rest : List Char}
    (h : stripPre qs r = some rest) : stripPre (q :: qs) (q :: r) = some rest := by
  simp [stripPre, h]

theorem parseTokenPayload_stringify (p : TokenPayload)
    (hd : ∀ ch ∈ p.device_id.data, jsonEscapeChar ch = [ch]) :
    parseTokenPayload (stringifyTokenPayload p) = some p := by
  obtain ⟨did, ia, ea⟩ := p
  have hd' : ∀ ch ∈ did.data, jsonEscapeChar ch = [ch] := hd
  have hesc : jsonEscape did = did := jsonEscape_id hd'
  have h2 : litP2.data = '"' :: (",\"issued_at\":").data := rfl
  have h3 : litP3.data = ',' :: ("\"expires_at\":").data := rfl
  have hdata : (stringifyTokenPayload ⟨did, ia, ea⟩).data =
      litP1.data ++ (did.data ++ (litP2.data ++ ((intToDecStr ia).data ++
        (litP3.data ++ ((intToDecStr ea).data ++ litP4.data))))) := by
    simp only [stringifyTokenPayload, hesc, String.data_append, List.append_assoc]
  unfold parseTokenPayload
  rw [hdata, stripPre_append]
  dsimp only
  rw [h2]
  simp only [List.cons_append]
  rw [takeWhile_middle did.data '"' _
        (fun x hx => by
          have := jsonEscapeChar_ne_quote (hd' x hx)
          simp [this]) (by simp),
      dropWhile_middle did.data '"' _
        (fun x hx => by
          have := jsonEscapeChar_ne_quote (hd' x hx)
          simp [this]) (by simp)]
  simp only [stripPre, List.nil_append, reduceIte]
  rw [h3]
  simp only [List.cons_append]
  rw [parseIntCharsLeading ia ',' _ (by decide)]
  dsimp only
  simp only [stripPre, List.cons_append, List.nil_append, reduceIte]
  rw [show (litP4.data : List Char) = '\x7d' :: [] from rfl]
  rw [parseIntCharsLeading ea '\x7d' [] (by decide)]
  dsimp only
  rw [if_pos rfl, string_mk_data]

theorem generateHMAC_ne (p : Platform) {k m1 m2 : String}
    (h : p.hmac (strBytes k) (strBytes m1) ≠ p.hmac (strBytes k) (strBytes m2)) :
    generateHMAC p k m1 ≠ generateHMAC p k m2 := by
  intro he
  exact h (b64encode_inj (p.hmac_lt _ _) (p.hmac_lt _ _) (stringMk_inj he))

theorem generateHMAC_ne_nil (p : Platform) {k m : String}
    (h : p.hmac (strBytes k) (strBytes m) ≠ []) : generateHMAC p k m ≠ "" := by
  intro he
  exact b64encode_ne_nil h (stringMk_inj he)

theorem verifySignature_char (p : Platform) (env : Env) (cache : KVStore DeviceInfo) (now : Int)
    (deviceId timestamp signature requestBody : String) :
    verifySignature p env cache now deviceId timestamp signature requestBody =
      match getDeviceInfo cache deviceId with
      | none => false
      | some di =>
          if timestampRejected now (parseIntJS timestamp)
              ((parseIntJS env.SIGNATURE_VALIDITY_MINUTES).map (fun m => m * 60 * 1000)) then
            false
          else
            signature == generateHMAC p di.key_seed
              (timestamp ++ deviceId ++ hashString p requestBody) := by
  unfold verifySignature verifySignatureE
  cases getDeviceInfo cache deviceId
  · rfl
  · cases hrej : timestampRejected now (parseIntJS timestamp)
        ((parseIntJS env.SIGNATURE_VALIDITY_MINUTES).map (fun m => m * 60 * 1000)) <;>
      simp [hrej]

theorem KVStore.get_put_same {α : Type} (s : KVStore α) (k : String) (v : α) (ttl : Nat) :
    (s.put k v ttl).get k = some v := by
  simp [KVStore.get, KVStore.put]

theorem KVStore.get_put_ne {α : Type} (s : KVStore α) {k k' : String} (v : α) (ttl : Nat)
    (h : k' ≠ k) : (s.put k v ttl).get k' = s.get k' := by
  simp [KVStore.get, KVStore.put, h]

theorem checkRateLimit_ok (env : Env) (rl : KVStore (List Int)) (now : Int) (d : String)
    (N : Int) (hN : parseIntJS env.RATE_LIMIT_PER_MINUTE = some N) (cur : List Int)
    (hcur : (rl.get (rateKey d)).getD [] = cur)
    (hfilter : cur.filter (fun x => decide (now - 60 * 1000 < x)) = cur)
    (hlen : (cur.length : Int) < N) :
    checkRateLimit env rl now d = (Except.ok (), rl.put (rateKey d) (cur ++ [now]) 3600) := by
  unfold checkRateLimit
  dsimp only
  rw [hcur, hN]
  dsimp only
  rw [hfilter, if_neg (by omega)]

theorem runRateCalls_ok (env : Env) (d : String) (N : Int)
    (hN : parseIntJS env.RATE_LIMIT_PER_MINUTE = some N) (hi : Int) (ts : List Int) :
    ∀ (cur : List Int) (rl : KVStore (List Int)),
      (rl.get (rateKey d)).getD [] = cur →
      (∀ x ∈ cur ++ ts, hi - 60000 < x ∧ x ≤ hi) →
      (cur.length : Int) + ts.length ≤ N →
      (runRateCalls env d rl ts).2 = List.replicate ts.length (Except.ok ()) ∧
      ((runRateCalls env d rl ts).1.get (rateKey d)).getD [] = cur ++ ts := by
  induction ts with
  | nil =>
      intro cur rl hcur hwin hlen
      simp [runRateCalls, hcur]
  | cons t ts ih =>
      intro cur rl hcur hwin hlen
      have ht := hwin t (by simp)
      have hfilter : cur.filter (fun x => decide (t - 60 * 1000 < x)) = cur := by
        apply List.filter_eq_self.mpr
        intro x hx
        have hx1 := hwin x (by simp [hx])
        simp only [decide_eq_true_eq]
        omega
      have hstep := checkRateLimit_ok env rl t d N hN cur hcur hfilter
        (by simp at hlen; omega)
      have hrec := ih (cur ++ [t]) (rl.put (rateKey d) (cur ++ [t]) 3600)
        (by rw [KVStore.get_put_same]; rfl)
        (by
          intro x hx
          apply hwin
          simp only [List.append_assoc, List.singleton_append] at hx
          exact hx)
        (by simp at hlen ⊢; omega)
      simp only [runRateCalls, hstep]
      refine ⟨?_, ?_⟩
      · simp [hrec.1, List.replicate_succ]
      · rw [show ((cur ++ [t]) ++ ts : List Int) = cur ++ t :: ts by simp] at hrec
        exact hrec.2

/-- C1: for a registered device and any body B, a signature computed as
base64(HMAC-SHA256(key_seed, timestamp ++ deviceId ++ lowercaseHexSHA256(B)))
with a timestamp inside the validity window verifies, and the same signature
over a body B' whose message MACs differently (as any single-byte flip does,
absent an HMAC/SHA-256 collision) is rejected. -/
theorem c1_signature_verifies_and_tamper_fails
    (p : Platform) (env : Env) (cache : KVStore DeviceInfo) (now t m : Int)
    (deviceId timestamp B B' : String) (di : DeviceInfo)
    (hreg : getDeviceInfo cache deviceId = some di)
    (ht : parseIntJS timestamp = some t)
    (hm : parseIntJS env.SIGNATURE_VALIDITY_MINUTES = some m)
    (hwin : |now - t| ≤ m * 60 * 1000)
    (hcoll : p.hmac (strBytes di.key_seed)
        (strBytes (timestamp ++ deviceId ++ hashString p B)) ≠
      p.hmac (strBytes di.key_seed)
        (strBytes (timestamp ++ deviceId ++ hashString p B'))) :
    verifySignature p env cache now deviceId timestamp
        (generateHMAC p di.key_seed (timestamp ++ deviceId ++ hashString p B)) B = true ∧
    verifySignature p env cache now deviceId timestamp
        (generateHMAC p di.key_seed (timestamp ++ deviceId ++ hashString p B)) B' = false := by
  have hrej : timestampRejected now (parseIntJS timestamp)
      ((parseIntJS env.SIGNATURE_VALIDITY_MINUTES).map (fun m => m * 60 * 1000)) = false := by
    rw [ht, hm]
    show (decide (|now - t| > m * 60 * 1000) : Bool) = false
    simp only [decide_eq_false_iff_not, not_lt]
    exact hwin
  constructor
  · rw [verifySignature_char, hreg]
    dsimp only
    rw [hrej]
    simp
  · rw [verifySignature_char, hreg]
    dsimp only
    rw [hrej]
    simp only [if_false, Bool.false_eq_true, beq_eq_false_iff_ne, ne_eq]
    exact generateHMAC_ne p hcoll

/-- Witness for C1 at explicit inputs. -/
theorem c1_witness :
    getDeviceInfo sampleCache "dev-1" = some sampleDevice ∧
    parseIntJS "1000" = some 1000 ∧
    parseIntJS sampleEnv.SIGNATURE_VALIDITY_MINUTES = some 5 ∧
    |(1200 : Int) - 1000| ≤ 5 * 60 * 1000 ∧
    (verifySignature idPlatform sampleEnv sampleCache 1200 "dev-1" "1000"
        (generateHMAC idPlatform sampleDevice.key_seed
          ("1000" ++ "dev-1" ++ hashString idPlatform "hello")) "hello" = true ∧
      verifySignature idPlatform sampleEnv sampleCache 1200 "dev-1" "1000"
        (generateHMAC idPlatform sampleDevice.key_seed
          ("1000" ++ "dev-1" ++ hashString idPlatform "hello")) "hellp" = false) :=
  ⟨by decide, by decide, by decide, by decide,
    c1_signature_verifies_and_tamper_fails idPlatform sampleEnv sampleCache 1200 1000 5
      "dev-1" "1000" "hello" "hellp" sampleDevice (by decide) (by decide) (by decide)
      (by decide) (by decide)⟩

/-- C2: for a registered device with a parseable timestamp and configured
window, `verifySignature` rejects exactly when |now - t| exceeds
SIGNATURE_VALIDITY_MINUTES * 60000: above the bound the result is false for
every signature and body, and at or below the bound the result is exactly the
signature comparison, so a timestamp precisely at the bound passes while one
millisecond beyond fails, symmetrically in both directions. -/
theorem c2_validity_window_exact
    (p : Platform) (env : Env) (cache : KVStore DeviceInfo) (now t m : Int)
    (deviceId timestamp signature body : String) (di : DeviceInfo)
    (hreg : getDeviceInfo cache deviceId = some di)
    (ht : parseIntJS timestamp = some t)
    (hm : parseIntJS env.SIGNATURE_VALIDITY_MINUTES = some m) :
    (|now - t| > m * 60 * 1000 →
      verifySignature p env cache now deviceId timestamp signature body = false) ∧
    (|now - t| ≤ m * 60 * 1000 →
      verifySignature p env cache now deviceId timestamp signature body =
        (signature == generateHMAC p di.key_seed
          (timestamp ++ deviceId ++ hashString p body))) := by
  constructor
  · intro hgt
    have hrej : timestampRejected now (parseIntJS timestamp)
        ((parseIntJS env.SIGNATURE_VALIDITY_MINUTES).map (fun m => m * 60 * 1000)) = true := by
      rw [ht, hm]
      show (decide (|now - t| > m * 60 * 1000) : Bool) = true
      simp only [decide_eq_true_eq]
      exact hgt
    rw [verifySignature_char, hreg]
    dsimp only
    rw [hrej]
    simp
  · intro hle
    have hrej : timestampRejected now (parseIntJS timestamp)
        ((parseIntJS env.SIGNATURE_VALIDITY_MINUTES).map (fun m => m * 60 * 1000)) = false := by
      rw [ht, hm]
      show (decide (|now - t| > m * 60 * 1000) : Bool) = false
      simp only [decide_eq_false_iff_not, not_lt]
      exact hle
    rw [verifySignature_char, hreg]
    dsimp only
    rw [hrej]
    simp

/-- Witness for C2 at the exact boundary: with a 5-minute window, a timestamp
exactly 300000 ms old passes (the check reduces to the signature comparison,
true for the correct signature), and one 300001 ms old is rejected. -/
theorem c2_witness :
    getDeviceInfo sampleCache "dev-1" = some sampleDevice ∧
    parseIntJS "700000" = some 700000 ∧
    parseIntJS "699999" = some 699999 ∧
    parseIntJS sampleEnv.SIGNATURE_VALIDITY_MINUTES = some 5 ∧
    (|(1000000 : Int) - 700000| ≤ 5 * 60 * 1000 →
      verifySignature idPlatform sampleEnv sampleCache 1000000 "dev-1" "700000"
          (generateHMAC idPlatform sampleDevice.key_seed
            ("700000" ++ "dev-1" ++ hashString idPlatform "b")) "b" =
        (generateHMAC idPlatform sampleDevice.key_seed
            ("700000" ++ "dev-1" ++ hashString idPlatform "b") ==
          generateHMAC idPlatform sampleDevice.key_seed
            ("700000" ++ "dev-1" ++ hashString idPlatform "b"))) ∧
    (|(1000000 : Int) - 699999| > 5 * 60 * 1000 →
      verifySignature idPlatform sampleEnv sampleCache 1000000 "dev-1" "699999" "sig" "b" =
        false) :=
  ⟨by decide, by decide, by decide, by decide,
    (c2_validity_window_exact idPlatform sampleEnv sampleCache 1000000 700000 5 "dev-1"
      "700000"
      (generateHMAC idPlatform sampleDevice.key_seed
        ("700000" ++ "dev-1" ++ hashString idPlatform "b")) "b" sampleDevice
      (by decide) (by decide) (by decide)).2,
    (c2_validity_window_exact idPlatform sampleEnv sampleCache 1000000 699999 5 "dev-1"
      "699999" "sig" "b" sampleDevice (by decide) (by decide) (by decide)).1⟩

/-- C4: `verifySignature` is a total boolean operation; both modelled throw
sites (unregistered device and expired timestamp, the errors its own try
block raises) are caught and surface as the plain boolean false, the same
value a wrong signature yields, so the caller cannot tell the failure modes
apart from the result. -/
theorem c4_failures_yield_plain_false
    (p : Platform) (env : Env) (cache : KVStore DeviceInfo) (now : Int)
    (deviceId timestamp signature requestBody : String) :
    (getDeviceInfo cache deviceId = none →
      verifySignature p env cache now deviceId timestamp signature requestBody = false) ∧
    (∀ e : AuthFailure,
      verifySignatureE p env cache now deviceId timestamp signature requestBody =
        Except.error e →
      verifySignature p env cache now deviceId timestamp signature requestBody = false) ∧
    (∀ di : DeviceInfo, getDeviceInfo cache deviceId = some di →
      signature ≠ generateHMAC p di.key_seed
        (timestamp ++ deviceId ++ hashString p requestBody) →
      verifySignature p env cache now deviceId timestamp signature requestBody = false) := by
  refine ⟨?_, ?_, ?_⟩
  · intro hnone
    rw [verifySignature_char, hnone]
  · intro e he
    unfold verifySignature
    rw [he]
  · intro di hreg hne
    rw [verifySignature_char, hreg]
    dsimp only
    split
    · rfl
    · simp only [beq_eq_false_iff_ne, ne_eq]
      exact hne

/-- Witness for C4: an unregistered device id, a thrown error, and a wrong
signature all evaluate to the same plain false. -/
theorem c4_witness :
    getDeviceInfo sampleCache "ghost" = none ∧
    verifySignatureE idPlatform sampleEnv sampleCache 0 "ghost" "1" "s" "b" =
      Except.error AuthFailure.deviceNotRegistered ∧
    verifySignature idPlatform sampleEnv sampleCache 0 "ghost" "1" "s" "b" = false :=
  ⟨by decide, by rfl,
    (c4_failures_yield_plain_false idPlatform sampleEnv sampleCache 0 "ghost" "1" "s" "b").1
      (by decide)⟩

/-- C10: when the x-timestamp header does not parse to a number (parseInt
yields NaN), the expiry comparison `Math.abs(now - NaN) > window` is false,
so the request is never rejected as expired: for every `now`, however far
from the request, verification reduces to the signature comparison over the
literal timestamp string. -/
theorem c10_nan_timestamp_skips_expiry
    (p : Platform) (env : Env) (cache : KVStore DeviceInfo) (now : Int)
    (deviceId timestamp signature B : String) (di : DeviceInfo)
    (hreg : getDeviceInfo cache deviceId = some di)
    (hts : parseIntJS timestamp = none) :
    verifySignature p env cache now deviceId timestamp signature B =
      (signature == generateHMAC p di.key_seed
        (timestamp ++ deviceId ++ hashString p B)) := by
  have hrej : timestampRejected now (parseIntJS timestamp)
      ((parseIntJS env.SIGNATURE_VALIDITY_MINUTES).map (fun m => m * 60 * 1000)) = false := by
    rw [hts]
    rfl
  rw [verifySignature_char, hreg]
  dsimp only
  rw [hrej]
  simp

/-- Witness for C10: with the unparsable timestamp string "abc" and a clock a
million years away, a signature matching the HMAC over the literal string
"abc" still verifies. -/
theorem c10_witness :
    parseIntJS "abc" = none ∧
    verifySignature idPlatform sampleEnv sampleCache 31536000000000000 "dev-1" "abc"
      (generateHMAC idPlatform sampleDevice.key_seed
        ("abc" ++ "dev-1" ++ hashString idPlatform "x")) "x" = true :=
  ⟨by decide, by
    rw [c10_nan_timestamp_skips_expiry idPlatform sampleEnv sampleCache 31536000000000000
      "dev-1" "abc"
      (generateHMAC idPlatform sampleDevice.key_seed
        ("abc" ++ "dev-1" ++ hashString idPlatform "x")) "x" sampleDevice
      (by decide) (by decide)]
    decide⟩

/-- C3: with a configured ceiling of N per minute and an empty window, N
calls within one 60-second span all succeed; a further call inside the same
span fails with the RateLimitError and returns the RATE_LIMIT namespace
unchanged (nothing is recorded); and once the oldest recorded timestamp is at
least 60 seconds in the past the next call succeeds again. -/
theorem c3_rate_limit_sliding_window
    (env : Env) (d : String) (N hi : Int) (ts : List Int)
    (hN : parseIntJS env.RATE_LIMIT_PER_MINUTE = some N)
    (hts_len : (ts.length : Int) = N)
    (rl : KVStore (List Int))
    (hempty : (rl.get (rateKey d)).getD [] = [])
    (hwin : ∀ x ∈ ts, hi - 60000 < x ∧ x ≤ hi) :
    (runRateCalls env d rl ts).2 = List.replicate ts.length (Except.ok ()) ∧
    (∀ t : Int, t ≤ hi →
      checkRateLimit env (runRateCalls env d rl ts).1 t d =
        (Except.error (rateLimitMessage N), (runRateCalls env d rl ts).1)) ∧
    (∀ t' t1 : Int, ts.head? = some t1 → t1 ≤ t' - 60000 →
      (checkRateLimit env (runRateCalls env d rl ts).1 t' d).1 = Except.ok ()) := by
  obtain ⟨hoks, hstore⟩ :=
    runRateCalls_ok env d N hN hi ts [] rl hempty (by simpa using hwin)
      (by simp [hts_len])
  simp only [List.nil_append] at hstore
  refine ⟨hoks, ?_, ?_⟩
  · intro t htle
    unfold checkRateLimit
    dsimp only
    rw [hstore, hN]
    dsimp only
    rw [List.filter_eq_self.mpr (by
      intro x hx
      have := hwin x hx
      simp only [decide_eq_true_eq]
      omega)]
    rw [if_pos (by omega)]
  · intro t' t1 hh hstale
    have hmem : t1 ∈ ts := List.mem_of_mem_head? (by rw [hh]; rfl)
    have hflt : (ts.filter (fun x => decide (t' - 60 * 1000 < x))).length < ts.length := by
      have hle := List.length_filter_le (fun x => decide (t' - 60 * 1000 < x)) ts
      rcases Nat.eq_or_lt_of_le hle with heq | hlt
      · exfalso
        have := List.filter_length_eq_length.mp heq t1 hmem
        simp only [decide_eq_true_eq] at this
        omega
      · exact hlt
    unfold checkRateLimit
    dsimp only
    rw [hstore, hN]
    dsimp only
    rw [if_neg (by
      simp only [not_le]
      have : (List.filter (fun x => decide (t' - 60 * 1000 < x)) ts).length < ts.length := hflt
      omega)]

/-- Witness for C3: ceiling 2, two calls at 50000 and 60000 succeed, a third
inside the window at 70000 fails with the RateLimitError and records
nothing, and a call at 111000 (oldest stamp 61 seconds old) succeeds. -/
theorem c3_witness :
    parseIntJS sampleEnv.RATE_LIMIT_PER_MINUTE = some 2 ∧
    ((KVStore.empty : KVStore (List Int)).get (rateKey "dev-1")).getD [] = [] ∧
    (runRateCalls sampleEnv "dev-1" KVStore.empty [50000, 60000]).2 =
      List.replicate 2 (Except.ok ()) ∧
    checkRateLimit sampleEnv (runRateCalls sampleEnv "dev-1" KVStore.empty [50000, 60000]).1
        70000 "dev-1" =
      (Except.error (rateLimitMessage 2),
        (runRateCalls sampleEnv "dev-1" KVStore.empty [50000, 60000]).1) ∧
    (checkRateLimit sampleEnv (runRateCalls sampleEnv "dev-1" KVStore.empty [50000, 60000]).1
        111000 "dev-1").1 = Except.ok () := by
  have h := c3_rate_limit_sliding_window sampleEnv "dev-1" 2 100000 [50000, 60000]
    (by decide) (by decide) KVStore.empty (by decide) (by decide)
  exact ⟨by decide, by decide, h.1, h.2.1 70000 (by decide),
    h.2.2 111000 50000 (by decide) (by decide)⟩

theorem deviceKey_inj {a b : String} (h : deviceKey a = deviceKey b) : a = b := by
  unfold deviceKey at h
  have h2 := congrArg String.data h
  simp only [String.data_append] at h2
  exact String.ext (List.append_cancel_left h2)

/-- C7: registering a device and looking it up returns a record whose
device_info is the supplied metadata, request_count is 0, device_id is the
given id, and key_seed is non-empty (the base64 of a non-empty MAC);
re-registering the same id is a plain overwrite with no uniqueness conflict,
preserving device_id and replacing key_seed with a fresh one whenever the
MACs of the two time-stamped seed strings differ. -/
theorem c7_register_overwrite
    (p : Platform) (env : Env) (cache : KVStore DeviceInfo) (now1 now2 : Int)
    (d : String) (meta1 meta2 : DeviceMeta) :
    ((registerDevice p env cache now1 d meta1).2.device_id = d ∧
      (registerDevice p env cache now1 d meta1).2.device_info = meta1 ∧
      (registerDevice p env cache now1 d meta1).2.request_count = 0 ∧
      getDeviceInfo (registerDevice p env cache now1 d meta1).1 d =
        some (registerDevice p env cache now1 d meta1).2) ∧
    (p.hmac (strBytes env.MASTER_KEY_SEED) (strBytes (keySeedData env d now1)) ≠ [] →
      (registerDevice p env cache now1 d meta1).2.key_seed ≠ "") ∧
    (getDeviceInfo
        (registerDevice p env (registerDevice p env cache now1 d meta1).1 now2 d meta2).1 d =
      some (registerDevice p env (registerDevice p env cache now1 d meta1).1 now2 d meta2).2 ∧
      (registerDevice p env (registerDevice p env cache now1 d meta1).1 now2 d meta2).2.device_id
        = d ∧
      (registerDevice p env (registerDevice p env cache now1 d meta1).1 now2 d
          meta2).2.device_info = meta2 ∧
      (p.hmac (strBytes env.MASTER_KEY_SEED) (strBytes (keySeedData env d now1)) ≠
          p.hmac (strBytes env.MASTER_KEY_SEED) (strBytes (keySeedData env d now2)) →
        (registerDevice p env (registerDevice p env cache now1 d meta1).1 now2 d
            meta2).2.key_seed ≠
          (registerDevice p env cache now1 d meta1).2.key_seed)) := by
  refine ⟨⟨rfl, rfl, rfl, ?_⟩, ?_, ⟨?_, rfl, rfl, ?_⟩⟩
  · simp [registerDevice, getDeviceInfo, storeDeviceInfo, KVStore.get_put_same]
  · intro hne
    exact generateHMAC_ne_nil p hne
  · simp [registerDevice, getDeviceInfo, storeDeviceInfo, KVStore.get_put_same]
  · intro hne
    exact generateHMAC_ne p (Ne.symm hne)

/-- Witness for C7: registering dev-2 twice at instants 10 and 20 under the
identity platform. -/
theorem c7_witness :
    idPlatform.hmac (strBytes sampleEnv.MASTER_KEY_SEED)
        (strBytes (keySeedData sampleEnv "dev-2" 10)) ≠ [] ∧
    idPlatform.hmac (strBytes sampleEnv.MASTER_KEY_SEED)
        (strBytes (keySeedData sampleEnv "dev-2" 10)) ≠
      idPlatform.hmac (strBytes sampleEnv.MASTER_KEY_SEED)
        (strBytes (keySeedData sampleEnv "dev-2" 20)) ∧
    getDeviceInfo (registerDevice idPlatform sampleEnv KVStore.empty 10 "dev-2" sampleMeta).1
        "dev-2" =
      some (registerDevice idPlatform sampleEnv KVStore.empty 10 "dev-2" sampleMeta).2 ∧
    (registerDevice idPlatform sampleEnv KVStore.empty 10 "dev-2" sampleMeta).2.request_count
      = 0 ∧
    (registerDevice idPlatform sampleEnv KVStore.empty 10 "dev-2" sampleMeta).2.key_seed ≠ "" ∧
    (registerDevice idPlatform sampleEnv
          (registerDevice idPlatform sampleEnv KVStore.empty 10 "dev-2" sampleMeta).1 20
          "dev-2" sampleMeta).2.key_seed ≠
      (registerDevice idPlatform sampleEnv KVStore.empty 10 "dev-2" sampleMeta).2.key_seed := by
  have h := c7_register_overwrite idPlatform sampleEnv KVStore.empty 10 20 "dev-2"
    sampleMeta sampleMeta
  exact ⟨by decide, by decide, h.1.2.2.2, h.1.2.2.1, h.2.1 (by decide),
    h.2.2.2.2.2 (by decide)⟩

/-- C8: for a registered device whose stored record carries its own id,
`updateDeviceLastSeen` re-persists the record with request_count incremented
by exactly one and last_seen set to the current instant, leaving device_id,
key_seed, registered_at and device_info unchanged (a record update of just
those two fields) and leaving every other key of the namespace untouched;
for an unregistered id it returns the namespace unchanged without error. -/
theorem c8_touch_increments_or_noop
    (p : Platform) (cache : KVStore DeviceInfo) (now : Int) (d : String) :
    (∀ di : DeviceInfo, getDeviceInfo cache d = some di → di.device_id = d →
      getDeviceInfo (updateDeviceLastSeen p cache now d) d =
        some { di with last_seen := p.isoString now,
                       request_count := di.request_count + 1 } ∧
      (∀ d' : String, d' ≠ d →
        getDeviceInfo (updateDeviceLastSeen p cache now d) d' = getDeviceInfo cache d')) ∧
    (getDeviceInfo cache d = none → updateDeviceLastSeen p cache now d = cache) := by
  constructor
  · intro di hreg hid
    constructor
    · unfold updateDeviceLastSeen
      rw [hreg]
      unfold getDeviceInfo storeDeviceInfo
      dsimp only
      rw [hid, KVStore.get_put_same]
    · intro d' hne
      unfold updateDeviceLastSeen
      rw [hreg]
      unfold getDeviceInfo storeDeviceInfo
      dsimp only
      rw [hid, KVStore.get_put_ne _ _ _ (fun hcontra => hne (deviceKey_inj hcontra))]
  · intro hnone
    unfold updateDeviceLastSeen
    rw [hnone]

/-- Witness for C8: touching the sample device bumps the count from 3 to 4
and stamps last_seen; touching a ghost id returns the namespace unchanged. -/
theorem c8_witness :
    getDeviceInfo sampleCache "dev-1" = some sampleDevice ∧
    sampleDevice.device_id = "dev-1" ∧
    getDeviceInfo (updateDeviceLastSeen idPlatform sampleCache 77 "dev-1") "dev-1" =
      some { sampleDevice with last_seen := idPlatform.isoString 77,
                               request_count := sampleDevice.request_count + 1 } ∧
    getDeviceInfo sampleCache "ghost" = none ∧
    updateDeviceLastSeen idPlatform sampleCache 77 "ghost" = sampleCache := by
  have h := c8_touch_increments_or_noop idPlatform sampleCache 77 "dev-1"
  have h2 := c8_touch_increments_or_noop idPlatform sampleCache 77 "ghost"
  exact ⟨by decide, by decide, (h.1 sampleDevice (by decide) (by decide)).1, by decide,
    h2.2 (by decide)⟩

/-- C9: the sanitized device-information reply is exactly the five fields
device_id, registered_at, last_seen, request_count and device_info and never
carries a key_seed field, while the registration response is the one reply
that does carry the key seed. -/
theorem c9_key_seed_only_in_registration_response
    (p : Platform) (env : Env) (cache : KVStore DeviceInfo) (now : Int) (d : String) :
    (∀ di : DeviceInfo, getDeviceInfo cache d = some di →
      getDeviceInfoHandler cache d = some (safeDeviceInfoFields di)) ∧
    (∀ di : DeviceInfo,
      (safeDeviceInfoFields di).lookup "key_seed" = none ∧
      (safeDeviceInfoFields di).lookup "device_id" = some di.device_id ∧
      (safeDeviceInfoFields di).lookup "registered_at" = some di.registered_at ∧
      (safeDeviceInfoFields di).lookup "last_seen" = some di.last_seen ∧
      (safeDeviceInfoFields di).lookup "request_count" = some (natToDecStr di.request_count) ∧
      (safeDeviceInfoFields di).lookup "device_info" =
        some (stringifyDeviceMeta di.device_info)) ∧
    (registrationResponseData p env now d).lookup "key_seed" =
      some (generateKeySeed p env now d) := by
  refine ⟨?_, ?_, ?_⟩
  · intro di hreg
    unfold getDeviceInfoHandler
    rw [hreg]
    rfl
  · intro di
    refine ⟨?_, ?_, ?_, ?_, ?_, ?_⟩ <;> rfl
  · rfl

/-- Witness for C9 at the sample device. -/
theorem c9_witness :
    getDeviceInfo sampleCache "dev-1" = some sampleDevice ∧
    getDeviceInfoHandler sampleCache "dev-1" = some (safeDeviceInfoFields sampleDevice) ∧
    (safeDeviceInfoFields sampleDevice).lookup "key_seed" = none ∧
    (registrationResponseData idPlatform sampleEnv 0 "dev-1").lookup "key_seed" =
      some (generateKeySeed idPlatform sampleEnv 0 "dev-1") := by
  have h := c9_key_seed_only_in_registration_response idPlatform sampleEnv sampleCache 0 "dev-1"
  exact ⟨by decide, h.1 sampleDevice (by decide), (h.2.1 sampleDevice).1, h.2.2⟩

theorem splitOn_dot_one {a : List Char} (ha : '.' ∉ a) : a.splitOn '.' = [a] := by
  unfold List.splitOn
  apply List.splitOnP_eq_single
  intro x hx
  simp only [beq_iff_eq]
  exact fun hEq => ha (hEq ▸ hx)

theorem splitOn_dot_two {a b : List Char} (ha : '.' ∉ a) (hb : '.' ∉ b) :
    (a ++ '.' :: b).splitOn '.' = [a, b] := by
  unfold List.splitOn
  rw [List.splitOnP_first _ _
    (fun x hx => by simp only [beq_iff_eq]; exact fun hEq => ha (hEq ▸ hx)) '.' (by simp)]
  rw [List.splitOnP_eq_single _ _
    (fun x hx => by simp only [beq_iff_eq]; exact fun hEq => hb (hEq ▸ hx))]

theorem splitOn_dot_three {a b c : List Char} (ha : '.' ∉ a) (hb : '.' ∉ b) (hc : '.' ∉ c) :
    (a ++ '.' :: (b ++ '.' :: c)).splitOn '.' = [a, b, c] := by
  unfold List.splitOn
  rw [List.splitOnP_first _ _
    (fun x hx => by simp only [beq_iff_eq]; exact fun hEq => ha (hEq ▸ hx)) '.' (by simp)]
  rw [List.splitOnP_first _ _
    (fun x hx => by simp only [beq_iff_eq]; exact fun hEq => hb (hEq ▸ hx)) '.' (by simp)]
  rw [List.splitOnP_eq_single _ _
    (fun x hx => by simp only [beq_iff_eq]; exact fun hEq => hc (hEq ▸ hx))]

theorem natToDecCharsAux_lt :
    ∀ fuel n, ∀ c ∈ natToDecCharsAux fuel n, c.toNat < 256 := by
  intro fuel
  induction fuel with
  | zero => simp [natToDecCharsAux]
  | succ f ih =>
      intro n c hc
      rw [natToDecCharsAux] at hc
      split at hc
      · simp only [List.mem_singleton] at hc
        subst hc
        rw [char_toNat_ofNat_small (48 + n) (by omega)]
        omega
      · simp only [List.mem_append, List.mem_singleton] at hc
        rcases hc with hc | rfl
        · exact ih (n / 10) c hc
        · rw [char_toNat_ofNat_small (48 + n % 10) (by omega)]
          omega

theorem intToDecStr_lt (i : Int) : ∀ c ∈ (intToDecStr i).data, c.toNat < 256 := by
  intro c hc
  unfold intToDecStr at hc
  split at hc
  · rw [String.data_append] at hc
    rcases List.mem_append.mp hc with hc | hc
    · simp only [show ("-" : String).data = ['-'] from rfl, List.mem_singleton] at hc
      subst hc
      decide
    · exact natToDecCharsAux_lt _ _ c hc
  · exact natToDecCharsAux_lt _ _ c hc

theorem stringifyTokenPayload_lt {d : String} (ia ea : Int)
    (hd : ∀ ch ∈ d.data, ch.toNat < 256) (hesc : jsonEscape d = d) :
    ∀ ch ∈ (stringifyTokenPayload
      { device_id := d, issued_at := ia, expires_at := ea }).data, ch.toNat < 256 := by
  intro ch hch
  unfold stringifyTokenPayload at hch
  dsimp only at hch
  rw [hesc] at hch
  simp only [String.data_append, List.mem_append] at hch
  rcases hch with ((((((h | h) | h) | h) | h) | h) | h)
  · exact (by decide : ∀ c ∈ litP1.data, c.toNat < 256) ch h
  · exact hd ch h
  · exact (by decide : ∀ c ∈ litP2.data, c.toNat < 256) ch h
  · exact intToDecStr_lt ia ch h
  · exact (by decide : ∀ c ∈ litP3.data, c.toNat < 256) ch h
  · exact intToDecStr_lt ea ch h
  · exact (by decide : ∀ c ∈ litP4.data, c.toNat < 256) ch h

/-- C5 counterexample: at an explicit device id, instant and platform, the
token `generateDeviceToken` produces differs from the construction the claim
words (HMAC over the base64-ENCODED payload bytes), because the code signs
the raw JSON payload bytes before encoding. -/
theorem c5_counterexample :
    generateDeviceToken idPlatform sampleEnv 0 "d" ≠
      generateDeviceTokenSpecWords idPlatform sampleEnv 0 "d" := by
  decide

/-- C5 (amended): the issued token is base64(JSON payload) ++ "." ++
base64(HMAC-SHA256 keyed by the token secret over the RAW JSON payload
bytes — the bytes before base64 encoding), where the payload is
`{device_id, issued_at: now, expires_at: now + 30 days}`; splitting the
token on '.' recovers exactly the two base64 segments, so '.' is a genuine
single separator. -/
theorem c5_token_shape (p : Platform) (env : Env) (now : Int) (d : String) :
    generateDeviceToken p env now d =
      btoaStr (stringifyTokenPayload
        { device_id := d, issued_at := now, expires_at := now + 86400 * 1000 * 30 }) ++ "." ++
      String.mk (b64encodeBytes (p.hmac (strBytes env.JWT_SECRET)
        (strBytes (stringifyTokenPayload
          { device_id := d, issued_at := now, expires_at := now + 86400 * 1000 * 30 })))) ∧
    (generateDeviceToken p env now d).data.splitOn '.' =
      [(btoaStr (stringifyTokenPayload
          { device_id := d, issued_at := now, expires_at := now + 86400 * 1000 * 30 })).data,
        b64encodeBytes (p.hmac (strBytes env.JWT_SECRET)
          (strBytes (stringifyTokenPayload
            { device_id := d, issued_at := now, expires_at := now + 86400 * 1000 * 30 })))] := by
  refine ⟨rfl, ?_⟩
  have hdata : (generateDeviceToken p env now d).data =
      (btoaStr (stringifyTokenPayload
        { device_id := d, issued_at := now, expires_at := now + 86400 * 1000 * 30 })).data ++
      '.' :: b64encodeBytes (p.hmac (strBytes env.JWT_SECRET)
        (strBytes (stringifyTokenPayload
          { device_id := d, issued_at := now, expires_at := now + 86400 * 1000 * 30 }))) := by
    unfold generateDeviceToken
    simp [String.data_append]
  rw [hdata, splitOn_dot_two (btoaStr_no_dot _) (b64encode_no_dot _)]

theorem verifyDecoded_not_two (p : Platform) (env : Env) (now : Int) (t : String)
    (h : (t.data.splitOn '.').length ≠ 2) :
    verifyDeviceTokenDecoded p env now t = none := by
  unfold verifyDeviceTokenDecoded
  rcases hsp : t.data.splitOn '.' with _ | ⟨x, _ | ⟨y, _ | ⟨z, r⟩⟩⟩
  · rfl
  · rfl
  · rw [hsp] at h
    simp at h
  · rfl

theorem verifyDecoded_pair (p : Platform) (env : Env) (now : Int) (t : String)
    (P S : List Char) (hsp : t.data.splitOn '.' = [P, S]) :
    verifyDeviceTokenDecoded p env now t =
      match atobStr (String.mk P) with
      | none => none
      | some payloadJson =>
          if String.mk S = String.mk (b64encodeBytes (p.hmac (strBytes env.JWT_SECRET)
              (strBytes payloadJson))) then
            match parseTokenPayload payloadJson with
            | some payload => if now ≤ payload.expires_at then some payload else none
            | none => none
          else none := by
  unfold verifyDeviceTokenDecoded
  rw [hsp]
  simp only [List.map_cons, List.map_nil]
  cases atobStr (String.mk P) <;> rfl

/-- C6 counterexample: taking §4.5's verify at its words — the HMAC is
recomputed over the (base64-encoded) payload segment — every token the code
issues is rejected, because `generateDeviceToken` signs the raw JSON bytes
instead; shown here at an explicit instant, device id and platform. -/
theorem c6_counterexample :
    verifyDeviceToken idPlatform sampleEnv 0
      (generateDeviceToken idPlatform sampleEnv 0 "d") = none := by
  decide

/-- C6 (amended): the repository provides no token verification; the verify
matching the issuance actually in the code — recomputing the HMAC over the
base64-DECODED payload segment — satisfies the round trip: verifying a
freshly issued token yields the payload with `device_id = d` and
`expires_at` exactly 30 days (2592000000 ms) after `issued_at = now`; and
replacing any single character of the token string with a different
character makes verification report invalid, provided the HMAC keyed by the
token secret is collision-free on byte strings (hinj). -/
theorem c6_token_verify_roundtrip_and_tamper
    (p : Platform) (env : Env) (now : Int) (d : String)
    (hd : ∀ ch ∈ d.data, jsonEscapeChar ch = [ch] ∧ ch.toNat < 256)
    (hinj : ∀ m1 m2 : List Nat, (∀ x ∈ m1, x < 256) → (∀ x ∈ m2, x < 256) →
      p.hmac (strBytes env.JWT_SECRET) m1 = p.hmac (strBytes env.JWT_SECRET) m2 → m1 = m2) :
    verifyDeviceTokenDecoded p env now (generateDeviceToken p env now d) =
      some { device_id := d, issued_at := now, expires_at := now + 86400 * 1000 * 30 } ∧
    (∀ (pre suf : List Char) (a b : Char),
      (generateDeviceToken p env now d).data = pre ++ a :: suf → b ≠ a →
      verifyDeviceTokenDecoded p env now (String.mk (pre ++ b :: suf)) = none) := by
  have hesc : jsonEscape d = d := jsonEscape_id (fun ch hch => (hd ch hch).1)
  have hpj_lt : ∀ ch ∈ (stringifyTokenPayload
      { device_id := d, issued_at := now,
        expires_at := now + 86400 * 1000 * 30 }).data, ch.toNat < 256 :=
    stringifyTokenPayload_lt now (now + 86400 * 1000 * 30) (fun ch hch => (hd ch hch).2) hesc
  set pj := stringifyTokenPayload
    { device_id := d, issued_at := now, expires_at := now + 86400 * 1000 * 30 } with hpj
  set mac := p.hmac (strBytes env.JWT_SECRET) (strBytes pj) with hmacdef
  have hP : '.' ∉ (btoaStr pj).data := btoaStr_no_dot pj
  have hS : '.' ∉ b64encodeBytes mac := b64encode_no_dot mac
  have hatob : atobStr (btoaStr pj) = some pj := atobStr_btoaStr hpj_lt
  have hparse : parseTokenPayload pj =
      some { device_id := d, issued_at := now, expires_at := now + 86400 * 1000 * 30 } :=
    parseTokenPayload_stringify _ (fun ch hch => (hd ch hch).1)
  have htok : (generateDeviceToken p env now d).data =
      (btoaStr pj).data ++ '.' :: b64encodeBytes mac := by
    unfold generateDeviceToken
    dsimp only
    rw [← hpj, ← hmacdef]
    simp [String.data_append]
  constructor
  · have hsp : (generateDeviceToken p env now d).data.splitOn '.' =
        [(btoaStr pj).data, b64encodeBytes mac] := by
      rw [htok]
      exact splitOn_dot_two hP hS
    rw [verifyDecoded_pair p env now _ _ _ hsp, string_mk_data, hatob]
    dsimp only
    rw [← hmacdef, if_pos rfl, hparse]
    dsimp only
    rw [if_pos (by omega)]
  · intro pre suf a b heq hne
    rw [htok] at heq
    rcases List.append_eq_append_iff.mp heq with ⟨u, hpre, hrest⟩ | ⟨u, hPsplit, hrest⟩
    · -- pre reaches to or past the separator
      rcases u with _ | ⟨c, u⟩
      · -- the separator itself is mutated
        simp only [List.append_nil] at hpre
        simp only [List.nil_append] at hrest
        injection hrest with h1 h2
        subst h1
        subst h2
        subst hpre
        apply verifyDecoded_not_two
        rw [splitOn_dot_one (by
          simp only [List.mem_append, List.mem_cons]
          rintro (h | h | h)
          · exact hP h
          · exact hne h.symm
          · exact hS h)]
        simp
      · -- the mutation lands in the signature segment
        simp only [List.cons_append] at hrest
        injection hrest with h1 h2
        subst h1
        subst hpre
        have hu : '.' ∉ u := fun h => hS (by rw [h2]; simp [h])
        have hsuf : '.' ∉ suf := fun h => hS (by rw [h2]; simp [h])
        by_cases hbdot : b = '.'
        · subst hbdot
          apply verifyDecoded_not_two
          rw [show (((btoaStr pj).data ++ '.' :: u) ++ '.' :: suf : List Char) =
              (btoaStr pj).data ++ '.' :: (u ++ '.' :: suf) by simp,
            splitOn_dot_three hP hu hsuf]
          simp
        · have hsp2 :
              (String.mk (((btoaStr pj).data ++ '.' :: u) ++ b :: suf)).data.splitOn '.' =
              [(btoaStr pj).data, u ++ b :: suf] := by
            rw [show ((String.mk (((btoaStr pj).data ++ '.' :: u) ++ b :: suf)).data
                : List Char) = (btoaStr pj).data ++ '.' :: (u ++ b :: suf) by simp]
            exact splitOn_dot_two hP (by
              simp only [List.mem_append, List.mem_cons]
              rintro (h | h | h)
              · exact hu h
              · exact hbdot h.symm
              · exact hsuf h)
          rw [verifyDecoded_pair p env now _ _ _ hsp2, string_mk_data, hatob]
          dsimp only
          rw [if_neg (by
            intro hcontra
            have hlists := stringMk_inj hcontra
            rw [← hmacdef, h2] at hlists
            have h4 := List.append_cancel_left hlists
            injection h4 with hba
            exact hne hba)]
    · -- the mutation lands in the payload segment (or on the separator)
      rcases u with _ | ⟨c, u⟩
      · -- the separator itself is mutated (degenerate split)
        simp only [List.append_nil] at hPsplit
        simp only [List.nil_append] at hrest
        injection hrest with h1 h2
        subst h1
        subst h2
        rw [← hPsplit]
        apply verifyDecoded_not_two
        rw [splitOn_dot_one (by
          simp only [List.mem_append, List.mem_cons]
          rintro (h | h | h)
          · exact hP h
          · exact hne h.symm
          · exact hS h)]
        simp
      · -- genuinely inside the payload segment
        simp only [List.cons_append] at hrest
        injection hrest with h1 h2
        subst h1
        subst h2
        have hpre_dot : '.' ∉ pre := fun h => hP (by rw [hPsplit]; simp [h])
        have hu : '.' ∉ u := fun h => hP (by rw [hPsplit]; simp [h])
        by_cases hbdot : b = '.'
        · subst hbdot
          apply verifyDecoded_not_two
          rw [splitOn_dot_three hpre_dot hu hS]
          simp
        · have hsp2 :
              (String.mk (pre ++ b :: (u ++ '.' :: b64encodeBytes mac))).data.splitOn '.' =
              [pre ++ b :: u, b64encodeBytes mac] := by
            rw [show ((String.mk (pre ++ b :: (u ++ '.' :: b64encodeBytes mac))).data
                : List Char) = (pre ++ b :: u) ++ '.' :: b64encodeBytes mac by simp]
            exact splitOn_dot_two (by
              simp only [List.mem_append, List.mem_cons]
              rintro (h | h | h)
              · exact hpre_dot h
              · exact hbdot h.symm
              · exact hu h) hS
          rw [verifyDecoded_pair p env now _ _ _ hsp2]
          rcases hA : atobStr (String.mk (pre ++ b :: u)) with _ | pj2
          · rfl
          · dsimp only
            rw [if_neg (by
              intro hcontra
              have hlists := stringMk_inj hcontra
              have hmac_eq : mac = p.hmac (strBytes env.JWT_SECRET) (strBytes pj2) :=
                b64encode_inj (p.hmac_lt _ _) (p.hmac_lt _ _) hlists
              have hb1 : ∀ x ∈ strBytes pj, x < 256 := strBytes_mem_lt hpj_lt
              have hb2 : ∀ x ∈ strBytes pj2, x < 256 := by
                unfold atobStr at hA
                rcases hdd : b64decodeBytes (String.mk (pre ++ b :: u)).data with _ | l
                · rw [hdd] at hA
                  simp at hA
                · rw [hdd] at hA
                  have hbs : bytesToStr l = pj2 := by
                    rw [show Option.map bytesToStr (some l) = some (bytesToStr l) from rfl]
                      at hA
                    exact Option.some.injEq _ _ ▸ hA
                  rw [← hbs, strBytes_bytesToStr (b64decode_lt hdd)]
                  exact b64decode_lt hdd
              have hpj_eq : pj2 = pj :=
                strBytes_inj (hinj _ _ hb2 hb1 (hmac_eq.symm.trans hmacdef))
              have hB : btoaStr pj2 = String.mk (pre ++ b :: u) := btoaStr_of_atob hA
              have hPP : (btoaStr pj).data = pre ++ b :: u := by
                rw [← hpj_eq, hB]
              rw [hPsplit] at hPP
              have h4 := List.append_cancel_left hPP
              injection h4 with hba
              exact hne hba.symm)]

theorem map_mod256_eq_self {l : List Nat} (h : ∀ x ∈ l, x < 256) :
    l.map (fun x => x % 256) = l := by
  induction l with
  | nil => rfl
  | cons a t ih =>
      have ha : a < 256 := h a (by simp)
      simp only [List.map_cons, Nat.mod_eq_of_lt ha]
      rw [ih (fun x hx => h x (by simp [hx]))]

theorem idPlatform_hmac_inj (k : List Nat) :
    ∀ m1 m2 : List Nat, (∀ x ∈ m1, x < 256) → (∀ x ∈ m2, x < 256) →
      idPlatform.hmac k m1 = idPlatform.hmac k m2 → m1 = m2 := by
  intro m1 m2 h1 h2 h
  have e1 : idPlatform.hmac k m1 = m1 := map_mod256_eq_self h1
  have e2 : idPlatform.hmac k m2 = m2 := map_mod256_eq_self h2
  rw [e1, e2] at h
  exact h

/-- Witness for C6 at the sample configuration and the identity platform,
whose HMAC is injective on bounded byte strings. -/
theorem c6_witness :
    (∀ ch ∈ ("dev-1" : String).data, jsonEscapeChar ch = [ch] ∧ ch.toNat < 256) ∧
    verifyDeviceTokenDecoded idPlatform sampleEnv 0
        (generateDeviceToken idPlatform sampleEnv 0 "dev-1") =
      some { device_id := "dev-1", issued_at := 0, expires_at := 0 + 86400 * 1000 * 30 } :=
  ⟨by decide,
    (c6_token_verify_roundtrip_and_tamper idPlatform sampleEnv 0 "dev-1" (by decide)
      (idPlatform_hmac_inj _)).1⟩
